import Mathlib

/-!
Verification of the data-fetch orchestration and caching layer of a
Discord/Plane reporting bot. The definitions below are a shallow embedding
of the JavaScript sources:

* `src/services/planeApi/cacheManager.js` — generic TTL cache with
  in-flight request deduplication (`CacheManager`);
* `src/services/planeApiDirect.js` — session-scoped caches, the retry
  executor `apiRequestWithRetry`, the resource fetchers and the
  per-work-item record emission of `processProjectActivities`;
* `src/services/personDailySummary.js` — the latest-wins classifier;
* `src/utils/stateUtils.js` — `STATE_PATTERNS` / `matchesStateCategory`;
* the constants module (`CACHE_TTL` et al.).

Timestamps are modelled as integers (JavaScript `Date` values compare
numerically), payloads as abstract values, and the single-threaded
JavaScript event loop as sequential interleaving of the synchronous
prologues of the async functions.
-/

/-! ### Cache manager (src/services/planeApi/cacheManager.js)

The store is keyed; every operation of `getOrFetch(key, fetchFn)` touches
only the entry and the pending-request slot of its own key, so the
embedding takes the per-key view: `cache` is the entry for the key under
consideration and `pendingRequests` the pending promise (by id) for it. -/

structure CMEntry where
  data : Nat
  timestamp : Int
deriving Repr, DecidableEq

structure CacheManager where
  cache : Option CMEntry
  ttl : Int
  pendingRequests : Option Nat
deriving Repr, DecidableEq

/-- `isCacheValid(timestamp)`: `timestamp && Date.now() - timestamp < this.ttl`.
The truthiness test on `timestamp` is the `!= 0` disjunct. -/
def CacheManager.isCacheValid (m : CacheManager) (timestamp now : Int) : Bool :=
  timestamp != 0 && decide (now - timestamp < m.ttl)

/-- `get(key)`: returns the data while valid; lazily evicts an expired entry. -/
def CacheManager.get (m : CacheManager) (now : Int) : Option Nat × CacheManager :=
  match m.cache with
  | some entry =>
      if m.isCacheValid entry.timestamp now then (some entry.data, m)
      else (none, { m with cache := none })
  | none => (none, m)

/-- Outcome of the synchronous prologue of one `getOrFetch(key, fetchFn)` call:
a cache hit, joining an in-flight promise, or starting a fresh fetch
(the only outcome that invokes `fetchFn`). -/
inductive GetOrFetchOutcome where
  | hit (v : Nat)
  | joined (pid : Nat)
  | started (pid : Nat)
deriving Repr, DecidableEq

/-- The synchronous prologue of `getOrFetch`: check the cache, then the
pending-request map, else register a fresh promise (id `pid`) and invoke
`fetchFn`. In the source this whole prologue runs atomically on the event
loop (the async IIFE suspends only at `await fetchFn()`), after
`pendingRequests.set` has executed. -/
def CacheManager.getOrFetchStep (m : CacheManager) (now : Int) (pid : Nat) :
    CacheManager × GetOrFetchOutcome :=
  let r := m.get now
  match r.1 with
  | some v => (r.2, .hit v)
  | none =>
      match r.2.pendingRequests with
      | some p => (r.2, .joined p)
      | none => ({ r.2 with pendingRequests := some pid }, .started pid)

/-- `n` concurrent callers of `getOrFetch` for the same key, interleaved by
the event loop: their prologues run one after the other, none of the
started fetches settling in between (they are all in flight). Fresh promise
ids are drawn from `pid0`, `pid0+1`, …. -/
def runConcurrentCalls (m : CacheManager) (now : Int) :
    Nat → Nat → CacheManager × List GetOrFetchOutcome
  | 0, _ => (m, [])
  | Nat.succ k, nextPid =>
      let s := m.getOrFetchStep now nextPid
      let rest := runConcurrentCalls s.1 now k (nextPid + 1)
      (rest.1, s.2 :: rest.2)

def GetOrFetchOutcome.isStarted : GetOrFetchOutcome → Bool
  | .started _ => true
  | _ => false

/-! ### Constants (src/services/planeApiDirect.js lines 823-891) -/

def MAX_RETRIES : Nat := 3
def INITIAL_RETRY_DELAY_MS : Nat := 20000
def MAX_WORK_ITEMS_PER_PROJECT : Nat := 200
def MAX_ACTIVITIES_PER_ITEM : Nat := 20
def PROJECTS_CACHE_TTL_MS : Nat := 5 * 60 * 1000
def USERS_CACHE_TTL_MS : Nat := 30 * 60 * 1000
def PROJECT_MEMBERS_CACHE_TTL_MS : Nat := 10 * 60 * 1000
def WORK_ITEMS_CACHE_TTL_MS : Nat := 5 * 60 * 1000
def ACTIVITIES_CACHE_TTL_MS : Nat := 5 * 60 * 1000
def COMMENTS_CACHE_TTL_MS : Nat := 5 * 60 * 1000
def SUBITEMS_CACHE_TTL_MS : Nat := 5 * 60 * 1000
def CYCLES_CACHE_TTL_MS : Nat := 5 * 60 * 1000

/-! ### Constants of the planeApi module (constants.js, `CACHE_TTL`) -/

def CACHE_TTL.PROJECTS : Nat := 5 * 60 * 1000
def CACHE_TTL.USERS : Nat := 30 * 60 * 1000
def CACHE_TTL.WORK_ITEMS : Nat := 5 * 60 * 1000
def CACHE_TTL.ACTIVITIES : Nat := 5 * 60 * 1000
def CACHE_TTL.COMMENTS : Nat := 5 * 60 * 1000
def CACHE_TTL.SUBITEMS : Nat := 5 * 60 * 1000
def CACHE_TTL.CYCLES : Nat := 10 * 60 * 1000

/-! ### Decimal rendering of numbers

`startProjectSession` interpolates `Date.now()` into a template string;
JavaScript renders the (integral, non-negative) number in decimal.
`natDigits`/`natToString` embed that rendering. -/

def digitChar (r : Nat) : Char :=
  match r with
  | 0 => '0' | 1 => '1' | 2 => '2' | 3 => '3' | 4 => '4'
  | 5 => '5' | 6 => '6' | 7 => '7' | 8 => '8' | 9 => '9'
  | _ => '*'

def natDigits (n : Nat) : List Char :=
  if _h : n < 10 then [digitChar n]
  else natDigits (n / 10) ++ [digitChar (n % 10)]
termination_by n
decreasing_by exact Nat.div_lt_self (by omega) (by omega)

def natToString (n : Nat) : String := String.mk (natDigits n)

/-! ### Session registry (src/services/planeApiDirect.js lines 893-948)

`currentSessionId`/`sessionStartTime` are the process-wide mutable slots. -/

structure SessionState where
  currentSessionId : Option String
  sessionStartTime : Option Nat
deriving Repr, DecidableEq

/-- Token built by `startProjectSession`: `projectId + "_" + Date.now()`. -/
def startProjectSessionToken (projectId : String) (now : Nat) : String :=
  projectId ++ "_" ++ natToString now

/-- `startProjectSession(projectId)`: builds the token from the project id
and the current clock millisecond, and overwrites the current session. -/
def startProjectSession (projectId : String) (now : Nat) (_s : SessionState) :
    String × SessionState :=
  let sessionId := startProjectSessionToken projectId now
  (sessionId, { currentSessionId := some sessionId, sessionStartTime := some now })

/-! ### Session-scoped caches (src/services/planeApiDirect.js)

`getWorkItemsWithCache`, `getActivitiesWithCache`, `getCommentsWithCache`,
`getSubitemsWithCache` and `getCyclesWithCache` all guard a read by the
same conjunction `cacheEntry && isInCurrentSession(cacheEntry) &&
isCacheValid(cacheEntry.timestamp, TTL)` and on a fetch store
`\x7b data, timestamp: Date.now(), sessionId: currentSessionId \x7d`.
`sessionCacheRead`/`sessionCacheWrite` embed that shared shape; the
per-cache TTL is a parameter. -/

structure SessionCacheEntry where
  data : Nat
  timestamp : Int
  sessionId : Option String
deriving Repr, DecidableEq

/-- `isCacheValid(timestamp, ttl)`: `timestamp && Date.now() - timestamp < ttl`. -/
def isCacheValid (timestamp : Int) (ttl : Int) (now : Int) : Bool :=
  timestamp != 0 && decide (now - timestamp < ttl)

/-- `isInCurrentSession(cacheEntry)`: false when there is no current session
or no entry, else compares the entry's stamp with the current token. -/
def isInCurrentSession (currentSessionId : Option String)
    (cacheEntry : Option SessionCacheEntry) : Bool :=
  match currentSessionId, cacheEntry with
  | some c, some e => e.sessionId == some c
  | _, _ => false

/-- The read guard shared by the five session-scoped cache wrappers. -/
def sessionCacheRead (currentSessionId : Option String)
    (entry : Option SessionCacheEntry) (ttl now : Int) : Option Nat :=
  match entry with
  | some e =>
      if isInCurrentSession currentSessionId (some e) && isCacheValid e.timestamp ttl now
      then some e.data else none
  | none => none

/-- The write performed after a fresh fetch: stamps the entry with the
current session token (read at write time) and the current clock. -/
def sessionCacheWrite (currentSessionId : Option String) (data : Nat) (now : Int) :
    SessionCacheEntry :=
  { data := data, timestamp := now, sessionId := currentSessionId }

/-! ### Retry executor (src/services/planeApiDirect.js lines 1297-1339)

`apiRequestWithRetry(requestFn, context)` loops over attempts `0, 1, 2`
(`MAX_RETRIES = 3`). A success returns; a failing attempt whose response
status is 429 sleeps and retries; any other failure is rethrown at once;
an exhausted loop rethrows the last error. The request function is
modelled as a map from the attempt index to its outcome. -/

/-- Outcome of one invocation of `requestFn`: a response value, or an error
carrying the optional HTTP status (`none` = network error, no response)
and the optional `retry-after` header in seconds. -/
inductive ReqResult (α : Type) where
  | ok (v : α)
  | err (status : Option Nat) (retryAfter : Option Nat)
deriving Repr, DecidableEq

/-- Delay computed in the 429 branch: honor the `retry-after` hint
(seconds, times 1000) when the header is present, else exponential backoff
`INITIAL_RETRY_DELAY_MS * 2 ^ attempt`; either way the result is clamped
from below by the conservative floor `3000 + attempt * 2000`. -/
def retryDelay (retryAfter : Option Nat) (attempt : Nat) : Nat :=
  let baseDelay :=
    match retryAfter with
    | some s => s * 1000
    | none => INITIAL_RETRY_DELAY_MS * 2 ^ attempt
  max baseDelay (3000 + attempt * 2000)

/-- Observable trace of one `apiRequestWithRetry` execution: the final
result (success value or thrown error), how many times `requestFn` was
invoked, and the sleeps performed between attempts (in ms, in order). -/
structure RetryTrace (α : Type) where
  result : Except (ReqResult α) α
  invocations : Nat
  delays : List Nat

def retryLoop (req : Nat → ReqResult α) (attempt : Nat)
    (lastError : Option (ReqResult α)) : RetryTrace α :=
  if _h : attempt < MAX_RETRIES then
    match req attempt with
    | .ok v => { result := .ok v, invocations := attempt + 1, delays := [] }
    | .err status retryAfter =>
        if status == some 429 then
          let next := retryLoop req (attempt + 1) (some (.err status retryAfter))
          { next with delays := retryDelay retryAfter attempt :: next.delays }
        else
          { result := .error (.err status retryAfter), invocations := attempt + 1,
            delays := [] }
  else
    { result := .error (lastError.getD (.err none none)), invocations := attempt,
      delays := [] }
termination_by MAX_RETRIES - attempt
decreasing_by simp only [MAX_RETRIES] at *; omega

def apiRequestWithRetry (req : Nat → ReqResult α) : RetryTrace α :=
  retryLoop req 0 none

/-! ### Fuzzy name matching (src/services/planeApiDirect.js lines 904-920) -/

/-- `toLowerCase` (ASCII range, which is what the source data contains). -/
def strToLower (s : String) : String := String.mk (s.data.map Char.toLower)

/-- `normalizeName`: lowercase, then drop every `.`, `-`, `_` and whitespace
character (the regex class of the source; `Char.isWhitespace` covers the
ASCII whitespace the source data contains). -/
def normalizeName (name : String) : String :=
  String.mk ((strToLower name).data.filter
    (fun c => !(c == '.' || c == '-' || c == '_' || c.isWhitespace)))

/-- `namesMatch`: false when either name is falsy (empty), else compares
the normalized forms. -/
def namesMatch (name1 name2 : String) : Bool :=
  if name1 == "" || name2 == "" then false
  else normalizeName name1 == normalizeName name2

/-- `namesMatch` applied to an optional field (an absent field is falsy). -/
def namesMatchOpt (name1 : Option String) (name2 : String) : Bool :=
  match name1 with
  | some s => namesMatch s name2
  | none => false

/-! ### JavaScript falsy-string fallback

`a || b` on strings takes `b` when `a` is `undefined`/`null` or empty. -/

def jsOrStr (s : String) (d : String) : String := if s == "" then d else s

def jsOrOpt (o : Option String) (d : String) : String :=
  match o with
  | some s => jsOrStr s d
  | none => d

/-! ### State classification (src/utils/stateUtils.js) -/

/-- `String.prototype.includes`: substring containment. -/
def includesAux (pat : List Char) : List Char → Bool
  | [] => pat.isEmpty
  | c :: t => pat.isPrefixOf (c :: t) || includesAux pat t

def strIncludes (s pat : String) : Bool := includesAux pat.data s.data

/-- `STATE_PATTERNS` lookup; an unknown category yields `[]`
(the `|| []` fallback of `matchesStateCategory`). -/
def STATE_PATTERNS (category : String) : List String :=
  if category == "completed" then
    ["done", "closed", "complete", "completed", "resolved"]
  else if category == "blocked" then
    ["block", "blocked", "blocking", "stuck", "on hold"]
  else if category == "inProgress" then
    ["progress", "in progress", "review", "active", "working", "started",
     "in review", "in qa"]
  else if category == "backlog" then
    ["backlog", "todo", "to do", "open", "new", "planned"]
  else []

/-- `matchesStateCategory(state, category)`: falsy state never matches;
else case-insensitive substring match against the category's patterns. -/
def matchesStateCategory (state category : String) : Bool :=
  if state == "" then false
  else (STATE_PATTERNS category).any (fun pat => strIncludes (strToLower state) pat)

/-! ### Latest-wins classifier (src/services/personDailySummary.js)

`getPersonDailySummary` routes each record of type `activity` or
`work_item_snapshot` into the per-project `workItemStates` map, keyed by
the record's work item (lines 105-125); the view below is the map cell of
one work item, fed exactly the records that name it. Snapshot records
carry `updatedAt` and no `time`; the source reads
`new Date(activity.time || activity.updatedAt)`. -/

structure WActivity where
  workItem : String
  workItemName : String
  newValue : Option String
  state : Option String
  field : Option String
  time : Option Int
  updatedAt : Int
deriving Repr, DecidableEq

def WActivity.effTime (a : WActivity) : Int := a.time.getD a.updatedAt

/-- Displayed state stored in the map: `activity.newValue || activity.state
|| "Unknown"` (empty strings are falsy). -/
def WActivity.displayedState (a : WActivity) : String :=
  match a.newValue with
  | some s => jsOrStr s (jsOrOpt a.state "Unknown")
  | none => jsOrOpt a.state "Unknown"

structure WorkItemStateEntry where
  id : String
  name : String
  state : String
  field : Option String
  time : Int
deriving Repr, DecidableEq

def WActivity.toEntry (a : WActivity) : WorkItemStateEntry :=
  { id := a.workItem, name := a.workItemName, state := a.displayedState,
    field := a.field, time := a.effTime }

/-- One step of the `workItemStates` update: replace the cell when there is
no entry yet or the record's timestamp is strictly later. -/
def updateWorkItemState (existing : Option WorkItemStateEntry) (a : WActivity) :
    Option WorkItemStateEntry :=
  match existing with
  | none => some a.toEntry
  | some e => if e.time < a.effTime then some a.toEntry else some e

def workItemStatesFold (rs : List WActivity) : Option WorkItemStateEntry :=
  rs.foldl updateWorkItemState none

/-- Buckets of the person summary (lines 134-153): `completed`, `blockers`,
and `inProgress` (which also absorbs backlog/unknown states, normalized to
a display state). -/
inductive SummaryBucket where
  | completed
  | blocked
  | inProgress (displayState : String)
deriving Repr, DecidableEq

def classifyState (state : String) : SummaryBucket :=
  if matchesStateCategory state "completed" then .completed
  else if matchesStateCategory state "blocked" then .blocked
  else
    let displayState :=
      if matchesStateCategory state "backlog" then "Backlog"
      else if matchesStateCategory state "inProgress" then state
      else "Backlog"
    .inProgress displayState

/-- Bucket assigned to one work item from its activity/snapshot records. -/
def classifyWorkItem (rs : List WActivity) : Option SummaryBucket :=
  (workItemStatesFold rs).map (fun e => classifyState e.state)

/-! ### Pagination envelopes (src/services/planeApiDirect.js)

Upstream list endpoints answer with a bare array, a `results`/`next_cursor`
envelope, or some other shape. Items are abstract ids. -/

inductive PageResponse where
  | arr (items : List Nat)
  | results (items : List Nat) (next_cursor : Option String)
  | other
deriving Repr, DecidableEq

/-- Shape normalization of the single-page fetchers:
`Array.isArray(response.data) ? response.data : response.data.results || []`. -/
def normalizeListResponse (data : PageResponse) : List Nat :=
  match data with
  | .arr items => items
  | .results items _ => items
  | .other => []

/-! ### fetchWorkItems (src/services/planeApiDirect.js lines 1423-1489)

The loop body is driven by the sequence of upstream responses; `resp i`
is the page returned by the request of iteration `i` (0-based). -/

def MAX_ITERATIONS : Nat := 10

def fetchWorkItemsLoop (resp : Nat → PageResponse) (iteration : Nat)
    (hasMore : Bool) (acc : List Nat) : List Nat :=
  if _h : hasMore = true ∧ acc.length < MAX_WORK_ITEMS_PER_PROJECT ∧
      iteration < MAX_ITERATIONS then
    match resp iteration with
    | .arr data =>
        acc ++ data.take (MAX_WORK_ITEMS_PER_PROJECT - acc.length)
    | .results items next_cursor =>
        if items.length > 0 then
          let acc2 := acc ++ items.take (MAX_WORK_ITEMS_PER_PROJECT - acc.length)
          let cursor :=
            if next_cursor.isSome && decide (acc2.length < MAX_WORK_ITEMS_PER_PROJECT)
            then next_cursor else none
          fetchWorkItemsLoop resp (iteration + 1) cursor.isSome acc2
        else acc
    | .other => acc
  else acc
termination_by MAX_ITERATIONS - iteration
decreasing_by simp only [MAX_ITERATIONS] at *; omega

def fetchWorkItems (resp : Nat → PageResponse) : List Nat :=
  fetchWorkItemsLoop resp 0 true []

/-! ### Error-absorbing per-item fetchers
(src/services/planeApiDirect.js lines 979-1020 and 1491-1513)

`fetchWorkItemActivities`, `fetchWorkItemComments` and
`fetchWorkItemSubitems` wrap `apiRequestWithRetry` in try/catch and return
`[]` on any thrown error. They are modelled after service initialization
(`ensureApi` passing); the upstream behaviour is the outcome map `req`. -/

def fetchWorkItemActivities (req : Nat → ReqResult PageResponse) : List Nat :=
  match (apiRequestWithRetry req).result with
  | .ok response => normalizeListResponse response
  | .error _ => []

def fetchWorkItemComments (req : Nat → ReqResult PageResponse) : List Nat :=
  match (apiRequestWithRetry req).result with
  | .ok response => normalizeListResponse response
  | .error _ => []

def fetchWorkItemSubitems (req : Nat → ReqResult PageResponse) : List Nat :=
  match (apiRequestWithRetry req).result with
  | .ok response => normalizeListResponse response
  | .error _ => []

/-! ### Per-work-item record emission
(src/services/planeApiDirect.js, `processProjectActivities` lines 1666-1857)

The fan-out body for one relevant work item (one `task` of
`relevantWorkItems`): given the fetched activities, comments and subitems
it appends activity, comment and subitem records that survive the date
window and actor filter, and a `work_item_snapshot` fallback when nothing
in-window was found and the filtered actor (if any) is an assignee.
`fetchUserName`'s preloaded user table is abstracted as `resolveName`. -/

structure RawActivity where
  created_at : Option Int
  updated_at : Int
  field : Option String
  old_value : Option String
  new_value : Option String
  verb : Option String
  actor : String
deriving Repr, DecidableEq

/-- `new Date(activity.created_at || activity.updated_at)`. -/
def activityDate (a : RawActivity) : Int := a.created_at.getD a.updated_at

structure RawComment where
  created_at : Int
  actor : Option String
  created_by : String
  comment_stripped : Option String
  comment_html : Option String
deriving Repr, DecidableEq

structure AssigneeDetail where
  display_name : Option String
  email : Option String
deriving Repr, DecidableEq

structure RawSubitem where
  sequence_id : Nat
  name : String
  state_name : Option String
  state_detail_name : Option String
  priority : Option String
  progress_total : Nat
  progress_completed : Nat
  assignee_details : List AssigneeDetail
  created_at : Int
  updated_at : Int
deriving Repr, DecidableEq

structure FetchTask where
  projectId : String
  workItemId : String
  workItemIdentifier : String
  workItemName : String
  projectIdentifier : String
  createdAt : Int
  updatedAt : Int
  assignees : List String
  state : String
  priority : String
deriving Repr, DecidableEq

/-- Value stored per relationship field in `currentRelationships`. -/
structure RelEntry where
  value : Option String
  updated_at : Option Int
  updated_by : String
deriving Repr, DecidableEq

def relationshipFields : List String :=
  ["relates_to", "blocks", "blocked_by", "depends_on", "parent"]

/-- Relationship extraction of the fan-out body: sort the item's activities
newest-first and keep the first (most recent) value per relationship field.
The association list preserves insertion order. -/
def currentRelationships (acts : List RawActivity) :
    List (String × RelEntry) :=
  let sorted := acts.mergeSort (fun a b => decide (activityDate b ≤ activityDate a))
  sorted.foldl
    (fun m a =>
      match a.field with
      | some f =>
          if relationshipFields.contains f && !(m.any (fun p => p.1 == f)) then
            m ++ [(f, { value := a.new_value, updated_at := a.created_at,
                        updated_by := a.actor })]
          else m
      | none => m)
    []

/-- Scan to the first `>` and return the remainder after it
(`none` when there is no `>`). -/
def dropThroughGt : List Char → Option (List Char)
  | [] => none
  | c :: t => if c == '>' then some t else dropThroughGt t

theorem dropThroughGt_length :
    ∀ (l r : List Char), dropThroughGt l = some r → r.length < l.length := by
  intro l
  induction l with
  | nil => intro r h; simp [dropThroughGt] at h
  | cons c t ih =>
      intro r h
      simp only [dropThroughGt] at h
      by_cases hc : (c == '>') = true
      · simp [hc] at h
        subst h
        simp
      · simp [hc] at h
        have := ih r h
        simp
        omega

/-- Removal of complete `<...>` groups, the regex replace
`comment_html.replace(/<[^>]*>/g, "")`: a `<` with no later `>` cannot be
part of a match and is kept. -/
def stripTagsAux (cs : List Char) : List Char :=
  match cs with
  | [] => []
  | c :: rest =>
      if c == '<' then
        match _h : dropThroughGt rest with
        | some tl => stripTagsAux tl
        | none => c :: rest
      else c :: stripTagsAux rest
termination_by cs.length
decreasing_by
  · have := dropThroughGt_length t tl _h
    simp only [List.length_cons]
    omega
  · simp only [List.length_cons]
    omega

def stripTags (s : String) : String := String.mk (stripTagsAux s.data)

/-- Comment body: `comment.comment_stripped ||
comment.comment_html?.replace(/<[^>]*>/g, "") || ""`. -/
def commentTextOf (c : RawComment) : String :=
  let htmlFallback :=
    match c.comment_html with
    | some h => stripTags h
    | none => ""
  match c.comment_stripped with
  | some s => jsOrStr s htmlFallback
  | none => htmlFallback

/-- The activity records produced by the orchestrator's fan-out, a tagged
union over the `type` field of the pushed objects. -/
inductive ActivityRecord where
  | activity (workItem workItemName project actor field : String)
      (oldValue newValue : Option String) (verb : String) (time : Int)
      (state : String) (relationships : List (String × RelEntry))
  | comment (workItem workItemName project actor text : String) (time : Int)
      (state : String) (relationships : List (String × RelEntry))
  | subitem (parentWorkItem parentWorkItemName project workItem workItemName
      state priority : String) (assignees : List String)
      (completedIssues totalIssues percentageComplete : Nat)
      (createdAt updatedAt : Int)
  | work_item_snapshot (workItem workItemName project state priority : String)
      (assignees : List String) (createdAt updatedAt : Int)
      (relationships : List (String × RelEntry))
deriving DecidableEq

/-- `Math.round((completed / total) * 100)` guarded by
`progress.total_issues ? ... : 0` (floor of x + 1/2 on non-negatives). -/
def completionPercentage (completed total : Nat) : Nat :=
  if total = 0 then 0 else (200 * completed + total) / (2 * total)

/-- Snapshot-eligibility: `!actorFilter || task.assignees.some(a =>
namesMatch(a, actorFilter))`. -/
def isAssignedTo (actorFilter : Option String) (assignees : List String) : Bool :=
  match actorFilter with
  | none => true
  | some f => assignees.any (fun a => namesMatch a f)

def inDateWindow (startDate endDate d : Int) : Bool :=
  decide (startDate ≤ d) && decide (d ≤ endDate)

/-- Body of the activities loop for one raw activity: `none` when outside
the date window or rejected by the actor filter, else the pushed
`activity` record. -/
def activityRecordFor (resolveName : String → String) (startDate endDate : Int)
    (actorFilter : Option String) (task : FetchTask)
    (rels : List (String × RelEntry)) (taskState : String) (a : RawActivity) :
    Option ActivityRecord :=
  if inDateWindow startDate endDate (activityDate a) then
    let actorName := resolveName a.actor
    if (match actorFilter with
        | some f => !namesMatch actorName f
        | none => false) then none
    else some (ActivityRecord.activity task.workItemIdentifier
      task.workItemName task.projectIdentifier actorName
      (jsOrOpt a.field "status") a.old_value a.new_value
      (jsOrOpt a.verb "updated") (activityDate a) taskState rels)
  else none

/-- Does this raw activity set `foundActivityInRange`? Only after passing
both the date window and the actor filter. -/
def activitySetsFound (resolveName : String → String) (startDate endDate : Int)
    (actorFilter : Option String) (a : RawActivity) : Bool :=
  inDateWindow startDate endDate (activityDate a) &&
  (match actorFilter with
   | some f => namesMatch (resolveName a.actor) f
   | none => true)

/-- Body of the comments loop for one raw comment. -/
def commentRecordFor (resolveName : String → String) (startDate endDate : Int)
    (actorFilter : Option String) (task : FetchTask)
    (rels : List (String × RelEntry)) (taskState : String) (c : RawComment) :
    Option ActivityRecord :=
  if inDateWindow startDate endDate c.created_at then
    let commentActor := resolveName (jsOrOpt c.actor c.created_by)
    if (match actorFilter with
        | some f => !namesMatch commentActor f
        | none => false) then none
    else some (ActivityRecord.comment task.workItemIdentifier
      task.workItemName task.projectIdentifier commentActor
      (commentTextOf c) c.created_at taskState rels)
  else none

/-- A raw comment sets `foundActivityInRange` as soon as it is in-window,
before (and regardless of) its actor filter. -/
def commentSetsFound (startDate endDate : Int) (c : RawComment) : Bool :=
  inDateWindow startDate endDate c.created_at

/-- Body of the subitems loop for one raw subitem (no date window; the
actor filter tests the subitem's own assignees). -/
def subitemRecordFor (actorFilter : Option String) (task : FetchTask)
    (s : RawSubitem) : Option ActivityRecord :=
  let keep :=
    match actorFilter with
    | some f => s.assignee_details.any
        (fun ad => namesMatchOpt ad.display_name f || namesMatchOpt ad.email f)
    | none => true
  if keep then
    some (ActivityRecord.subitem task.workItemIdentifier task.workItemName
      task.projectIdentifier
      (task.projectIdentifier ++ "-" ++ natToString s.sequence_id) s.name
      (jsOrOpt s.state_name (jsOrOpt s.state_detail_name "Unknown"))
      (jsOrOpt s.priority "none")
      (s.assignee_details.map
        (fun ad => jsOrOpt ad.display_name (jsOrOpt ad.email "Unassigned")))
      s.progress_completed s.progress_total
      (completionPercentage s.progress_completed s.progress_total)
      s.created_at s.updated_at)
  else none

/-- The snapshot pushed by the fallback (and by the error path). -/
def snapshotRecordFor (task : FetchTask) (rels : List (String × RelEntry)) :
    ActivityRecord :=
  ActivityRecord.work_item_snapshot task.workItemIdentifier task.workItemName
    task.projectIdentifier (jsOrStr task.state "Unknown")
    (jsOrStr task.priority "None") task.assignees task.createdAt
    task.updatedAt rels

/-- Records pushed for one work item by the fan-out body, in push order:
in-window actor-filtered activities (first `MAX_ACTIVITIES_PER_ITEM`),
in-window actor-filtered comments (ditto), assignee-filtered subitems, and
the snapshot fallback when nothing set the found-in-range flag and the
filtered actor (if any) is among the task's assignees. -/
def processTaskRecords (resolveName : String → String) (startDate endDate : Int)
    (actorFilter : Option String) (task : FetchTask)
    (itemActivities : List RawActivity) (comments : List RawComment)
    (subitems : List RawSubitem) : List ActivityRecord :=
  let rels := currentRelationships itemActivities
  let taskState := jsOrStr task.state "Unknown"
  let actRecords := (itemActivities.take MAX_ACTIVITIES_PER_ITEM).filterMap
    (activityRecordFor resolveName startDate endDate actorFilter task rels taskState)
  let foundFromActivities := (itemActivities.take MAX_ACTIVITIES_PER_ITEM).any
    (activitySetsFound resolveName startDate endDate actorFilter)
  let comRecords := (comments.take MAX_ACTIVITIES_PER_ITEM).filterMap
    (commentRecordFor resolveName startDate endDate actorFilter task rels taskState)
  let foundFromComments := (comments.take MAX_ACTIVITIES_PER_ITEM).any
    (commentSetsFound startDate endDate)
  let subRecords := subitems.filterMap (subitemRecordFor actorFilter task)
  let foundActivityInRange := foundFromActivities || foundFromComments
  let snapRecords :=
    if !foundActivityInRange && isAssignedTo actorFilter task.assignees then
      [snapshotRecordFor task rels]
    else []
  actRecords ++ comRecords ++ subRecords ++ snapRecords

/-! ## Helper lemmas -/

def digitVal (c : Char) : Nat :=
  if c == '0' then 0 else if c == '1' then 1 else if c == '2' then 2
  else if c == '3' then 3 else if c == '4' then 4 else if c == '5' then 5
  else if c == '6' then 6 else if c == '7' then 7 else if c == '8' then 8
  else if c == '9' then 9 else 0

theorem digitVal_digitChar (r : Nat) (h : r < 10) : digitVal (digitChar r) = r := by
  interval_cases r <;> rfl

def digitsVal (cs : List Char) : Nat :=
  cs.foldl (fun acc c => 10 * acc + digitVal c) 0

theorem digitsVal_append_singleton (l : List Char) (c : Char) :
    digitsVal (l ++ [c]) = 10 * digitsVal l + digitVal c := by
  simp [digitsVal, List.foldl_append]

theorem digitsVal_natDigits (n : Nat) : digitsVal (natDigits n) = n := by
  induction n using Nat.strong_induction_on with
  | _ n ih =>
      rw [natDigits]
      by_cases h : n < 10
      · simp only [h, dite_true]
        simp [digitsVal, digitVal_digitChar n h]
      · simp only [h, dite_false]
        rw [digitsVal_append_singleton]
        rw [ih (n / 10) (Nat.div_lt_self (by omega) (by omega))]
        rw [digitVal_digitChar (n % 10) (Nat.mod_lt n (by omega))]
        omega

theorem natToString_inj {m n : Nat} (h : natToString m = natToString n) : m = n := by
  have hd : natDigits m = natDigits n := congrArg String.data h
  calc m = digitsVal (natDigits m) := (digitsVal_natDigits m).symm
    _ = digitsVal (natDigits n) := by rw [hd]
    _ = n := digitsVal_natDigits n

theorem startProjectSessionToken_inj (pid : String) {m n : Nat}
    (h : startProjectSessionToken pid m = startProjectSessionToken pid n) :
    m = n := by
  apply natToString_inj
  have h2 := congrArg String.data h
  simp only [startProjectSessionToken, String.data_append] at h2
  have h3 := List.append_cancel_left h2
  exact String.ext h3

theorem startProjectSessionToken_ne (pid : String) {m n : Nat} (h : m ≠ n) :
    startProjectSessionToken pid m ≠ startProjectSessionToken pid n :=
  fun he => h (startProjectSessionToken_inj pid he)

theorem digitChar_ne_underscore (r : Nat) : digitChar r ≠ '_' := by
  unfold digitChar
  split <;> decide

theorem natDigits_no_underscore (n : Nat) : '_' ∉ natDigits n := by
  induction n using Nat.strong_induction_on with
  | _ n ih =>
      rw [natDigits]
      by_cases h : n < 10
      · simp only [h, dite_true, List.mem_singleton]
        exact (digitChar_ne_underscore n).symm
      · simp only [h, dite_false, List.mem_append, List.mem_singleton]
        push_neg
        exact ⟨ih (n / 10) (Nat.div_lt_self (by omega) (by omega)),
          (digitChar_ne_underscore (n % 10)).symm⟩

/-- A list equation `l1 ++ c :: r1 = l2 ++ c :: r2` splits uniquely at the
first occurrence of `c` when neither prefix contains `c`. -/
theorem append_cons_split (c : Char) :
    ∀ (l1 l2 r1 r2 : List Char), c ∉ l1 → c ∉ l2 →
      l1 ++ c :: r1 = l2 ++ c :: r2 → l1 = l2 ∧ r1 = r2 := by
  intro l1
  induction l1 with
  | nil =>
      intro l2 r1 r2 _ h2 heq
      cases l2 with
      | nil => simpa using heq
      | cons b t2 =>
          simp only [List.nil_append, List.cons_append, List.cons.injEq] at heq
          exact absurd (heq.1 ▸ List.mem_cons_self b t2) h2
  | cons a t1 ih =>
      intro l2 r1 r2 h1 h2 heq
      cases l2 with
      | nil =>
          simp only [List.nil_append, List.cons_append, List.cons.injEq] at heq
          exact absurd (heq.1 ▸ List.mem_cons_self a t1) h1
      | cons b t2 =>
          simp only [List.cons_append, List.cons.injEq] at heq
          obtain ⟨hab, ht⟩ := heq
          have hrec := ih t2 r1 r2 (fun hc => h1 (List.mem_cons_of_mem a hc))
            (fun hc => h2 (List.mem_cons_of_mem b hc)) ht
          exact ⟨by rw [hab, hrec.1], hrec.2⟩

/-- The session token determines both of its inputs: since the decimal
`Date.now()` suffix contains no underscore, the split of the token at its
last underscore is unique, so tokens coincide exactly when both the scope
id and the millisecond do. -/
theorem startProjectSessionToken_eq_iff (pid1 pid2 : String) (n1 n2 : Nat) :
    startProjectSessionToken pid1 n1 = startProjectSessionToken pid2 n2 ↔
      (pid1 = pid2 ∧ n1 = n2) := by
  constructor
  · intro h
    have hd : pid1.data ++ '_' :: natDigits n1 =
        pid2.data ++ '_' :: natDigits n2 := by
      simpa [startProjectSessionToken, String.data_append, natToString]
        using congrArg String.data h
    have hrev := congrArg List.reverse hd
    simp only [List.reverse_append, List.reverse_cons, List.append_assoc,
      List.singleton_append] at hrev
    have hsplit := append_cons_split '_' (natDigits n1).reverse
      (natDigits n2).reverse pid1.data.reverse pid2.data.reverse
      (by
        rw [List.mem_reverse]
        exact natDigits_no_underscore n1)
      (by
        rw [List.mem_reverse]
        exact natDigits_no_underscore n2)
      hrev
    have hpid : pid1.data = pid2.data := by
      have := congrArg List.reverse hsplit.2
      simpa using this
    have hdig : natDigits n1 = natDigits n2 := by
      have := congrArg List.reverse hsplit.1
      simpa using this
    refine ⟨String.ext hpid, ?_⟩
    calc n1 = digitsVal (natDigits n1) := (digitsVal_natDigits n1).symm
      _ = digitsVal (natDigits n2) := by rw [hdig]
      _ = n2 := digitsVal_natDigits n2
  · rintro ⟨rfl, rfl⟩
    rfl

/-! ## Claims -/

/-- C6, counterexample: the claim asserts the cycles TTL is strictly greater
than the volatile per-item TTLs, but in `planeApiDirect.js` the cycles cache
TTL equals the work-items TTL (both 5 minutes). -/
theorem cycles_ttl_not_greater :
    ¬ (WORK_ITEMS_CACHE_TTL_MS < CYCLES_CACHE_TTL_MS) := by decide

/-- C6, amended: the users TTL (30 min) is strictly greater than each of the
volatile per-item TTLs (5 min) in both constant sets; the cycles TTL is
strictly greater than the volatile TTLs only in the planeApi module's
`CACHE_TTL` table (10 min), while in `planeApiDirect.js` the cycles TTL
equals the volatile 5-minute TTLs. -/
theorem ttl_ordering_amended :
    (WORK_ITEMS_CACHE_TTL_MS < USERS_CACHE_TTL_MS ∧
     ACTIVITIES_CACHE_TTL_MS < USERS_CACHE_TTL_MS ∧
     COMMENTS_CACHE_TTL_MS < USERS_CACHE_TTL_MS ∧
     SUBITEMS_CACHE_TTL_MS < USERS_CACHE_TTL_MS) ∧
    (CACHE_TTL.WORK_ITEMS < CACHE_TTL.USERS ∧
     CACHE_TTL.ACTIVITIES < CACHE_TTL.USERS ∧
     CACHE_TTL.COMMENTS < CACHE_TTL.USERS ∧
     CACHE_TTL.SUBITEMS < CACHE_TTL.USERS) ∧
    (CACHE_TTL.WORK_ITEMS < CACHE_TTL.CYCLES ∧
     CACHE_TTL.ACTIVITIES < CACHE_TTL.CYCLES ∧
     CACHE_TTL.COMMENTS < CACHE_TTL.CYCLES ∧
     CACHE_TTL.SUBITEMS < CACHE_TTL.CYCLES) ∧
    (CYCLES_CACHE_TTL_MS = WORK_ITEMS_CACHE_TTL_MS ∧
     CYCLES_CACHE_TTL_MS = ACTIVITIES_CACHE_TTL_MS ∧
     CYCLES_CACHE_TTL_MS = COMMENTS_CACHE_TTL_MS ∧
     CYCLES_CACHE_TTL_MS = SUBITEMS_CACHE_TTL_MS) := by decide

/-- C5, counterexample: two consecutive `startProjectSession` calls with the
same scope id in the same clock millisecond produce the identical token,
refuting "the second token differs from the first for all argument values
and call times". -/
theorem startProjectSession_token_repeats :
    (startProjectSession "proj" 1755000000000
        ((startProjectSession "proj" 1755000000000
          { currentSessionId := none, sessionStartTime := none }).2)).1 =
    (startProjectSession "proj" 1755000000000
        { currentSessionId := none, sessionStartTime := none }).1 := rfl

/-- C5, amended: the token of the second of two consecutive
`startProjectSession` calls equals the first's exactly when both the scope
id and the clock millisecond `Date.now()` coincide — so the token is fresh
whenever the scope id or the millisecond differs, and repeats only for two
calls with the same scope id within the same millisecond. -/
theorem startProjectSession_fresh (pid1 pid2 : String) (n1 n2 : Nat)
    (s1 s2 : SessionState) :
    (startProjectSession pid2 n2 s2).1 = (startProjectSession pid1 n1 s1).1 ↔
      (pid2 = pid1 ∧ n2 = n1) := by
  simpa [startProjectSession] using
    startProjectSessionToken_eq_iff pid2 pid1 n2 n1

/-- C5, witness for the amended theorem at concrete inputs: tokens differ
across distinct scope ids at the same millisecond, and across distinct
milliseconds for the same scope id. -/
theorem startProjectSession_fresh_witness :
    (startProjectSession "q" 5
        { currentSessionId := none, sessionStartTime := none }).1 ≠
    (startProjectSession "p" 5
        { currentSessionId := none, sessionStartTime := none }).1 ∧
    (startProjectSession "p" 2
        { currentSessionId := none, sessionStartTime := none }).1 ≠
    (startProjectSession "p" 1
        { currentSessionId := none, sessionStartTime := none }).1 := by
  constructor
  · intro h
    exact absurd ((startProjectSession_fresh "p" "q" 5 5
      { currentSessionId := none, sessionStartTime := none }
      { currentSessionId := none, sessionStartTime := none }).mp h).1
      (by decide)
  · intro h
    exact absurd ((startProjectSession_fresh "p" "p" 1 2
      { currentSessionId := none, sessionStartTime := none }
      { currentSessionId := none, sessionStartTime := none }).mp h).2
      (by decide)

/-- C4, counterexample: for a 429 response carrying `retry-after: 1`, the
claim requires a wait of exactly 1000 ms before the next attempt, but the
executor's first recorded delay is `max(1000, 3000 + 0*2000) = 3000` ms. -/
theorem retry_after_not_verbatim :
    (apiRequestWithRetry
        (fun _ => ReqResult.err (some 429) (some 1) : Nat → ReqResult Nat)).delays.head?
      = some 3000 ∧ (3000 : Nat) ≠ 1 * 1000 := by
  constructor
  · simp [apiRequestWithRetry, retryLoop, retryDelay, MAX_RETRIES,
      INITIAL_RETRY_DELAY_MS]
  · decide

/-- C4, amended: on a 429 the executor waits
`max(hint*1000, 3000 + attempt*2000)` ms, so the `retry-after` hint is
honored verbatim exactly when `hint*1000` is at least the conservative
floor `3000 + attempt*2000`; when the hint is absent the wait is the pure
exponential backoff `INITIAL_RETRY_DELAY_MS * 2^attempt` (the floor never
binds there); the waited delay before the next attempt is `retryDelay`. -/
theorem retryDelay_amended (s attempt : Nat) :
    (retryDelay (some s) attempt = s * 1000 ↔ 3000 + attempt * 2000 ≤ s * 1000) ∧
    retryDelay none attempt = INITIAL_RETRY_DELAY_MS * 2 ^ attempt ∧
    (∀ (req : Nat → ReqResult Nat) (ra : Option Nat)
      (last : Option (ReqResult Nat)),
      attempt < MAX_RETRIES → req attempt = ReqResult.err (some 429) ra →
      (retryLoop req attempt last).delays.head? = some (retryDelay ra attempt)) := by
  refine ⟨?_, ?_, ?_⟩
  · unfold retryDelay
    exact max_eq_left_iff
  · unfold retryDelay
    apply max_eq_left
    have h1 : attempt + 1 ≤ 2 ^ attempt := Nat.lt_two_pow attempt
    have h2 : INITIAL_RETRY_DELAY_MS * (attempt + 1) ≤
        INITIAL_RETRY_DELAY_MS * 2 ^ attempt := Nat.mul_le_mul_left _ h1
    simp only [INITIAL_RETRY_DELAY_MS] at h2 ⊢
    omega
  · intro req ra last hlt hreq
    rw [retryLoop, dif_pos hlt, hreq]
    simp

/-- C4, witness for the amended theorem at concrete inputs: a 5-second
hint at attempt 0, no hint at attempt 0, and the recorded delay of a
request that fails with 429 and a 7-second hint. -/
theorem retryDelay_amended_witness :
    (retryDelay (some 5) 0 = 5 * 1000 ↔ 3000 + 0 * 2000 ≤ 5 * 1000) ∧
    retryDelay none 0 = INITIAL_RETRY_DELAY_MS * 2 ^ 0 ∧
    (retryLoop (fun _ => ReqResult.err (some 429) (some 7) : Nat → ReqResult Nat)
        0 none).delays.head? = some (retryDelay (some 7) 0) :=
  ⟨(retryDelay_amended 5 0).1, (retryDelay_amended 5 0).2.1,
   (retryDelay_amended 5 0).2.2 (fun _ => ReqResult.err (some 429) (some 7))
     (some 7) none (by decide) rfl⟩

/-- C3: the retry executor invokes `requestFn` exactly once and propagates
the error for any non-429 failure; invokes it three times and returns the
value for 429, 429, success; and invokes it three times and surfaces the
last error when every attempt returns 429. -/
theorem apiRequestWithRetry_behavior
    (req1 req2 req3 : Nat → ReqResult Nat)
    (st ra r0 r1 r2 r3 r4 : Option Nat) (v : Nat)
    (hst : st ≠ some 429)
    (h1 : req1 0 = ReqResult.err st ra)
    (h20 : req2 0 = ReqResult.err (some 429) r0)
    (h21 : req2 1 = ReqResult.err (some 429) r1)
    (h22 : req2 2 = ReqResult.ok v)
    (h30 : req3 0 = ReqResult.err (some 429) r2)
    (h31 : req3 1 = ReqResult.err (some 429) r3)
    (h32 : req3 2 = ReqResult.err (some 429) r4) :
    ((apiRequestWithRetry req1).result = Except.error (ReqResult.err st ra) ∧
     (apiRequestWithRetry req1).invocations = 1) ∧
    ((apiRequestWithRetry req2).result = Except.ok v ∧
     (apiRequestWithRetry req2).invocations = 3) ∧
    ((apiRequestWithRetry req3).result = Except.error (ReqResult.err (some 429) r4) ∧
     (apiRequestWithRetry req3).invocations = 3) := by
  have hb : (st == some 429) = false := beq_eq_false_iff_ne.mpr hst
  refine ⟨⟨?_, ?_⟩, ⟨?_, ?_⟩, ⟨?_, ?_⟩⟩ <;>
    simp [apiRequestWithRetry, retryLoop, h1, h20, h21, h22, h30, h31, h32,
      hb, MAX_RETRIES]

/-- C3, witness: the three scenarios at concrete request functions
(a 500 error; 429 twice then the value 42; 429 on every attempt). -/
theorem apiRequestWithRetry_behavior_witness :
    ((apiRequestWithRetry
        (fun _ => ReqResult.err (some 500) none : Nat → ReqResult Nat)).result =
          Except.error (ReqResult.err (some 500) none) ∧
     (apiRequestWithRetry
        (fun _ => ReqResult.err (some 500) none : Nat → ReqResult Nat)).invocations = 1) ∧
    ((apiRequestWithRetry
        (fun i => if i < 2 then ReqResult.err (some 429) none
          else ReqResult.ok 42)).result = Except.ok 42 ∧
     (apiRequestWithRetry
        (fun i => if i < 2 then ReqResult.err (some 429) none
          else ReqResult.ok 42)).invocations = 3) ∧
    ((apiRequestWithRetry
        (fun _ => ReqResult.err (some 429) none : Nat → ReqResult Nat)).result =
          Except.error (ReqResult.err (some 429) none) ∧
     (apiRequestWithRetry
        (fun _ => ReqResult.err (some 429) none : Nat → ReqResult Nat)).invocations = 3) :=
  apiRequestWithRetry_behavior
    (fun _ => ReqResult.err (some 500) none)
    (fun i => if i < 2 then ReqResult.err (some 429) none else ReqResult.ok 42)
    (fun _ => ReqResult.err (some 429) none)
    (some 500) none none none none none none 42
    (by decide) rfl rfl rfl rfl rfl rfl rfl

/-- C10: the per-item fetchers absorb every upstream failure — whenever the
retry executor surfaces an error (non-429, or 429 with retries exhausted)
they return `[]` instead of throwing, which is exactly their result on a
successful response whose result list is empty. -/
theorem fetchers_absorb_errors (req : Nat → ReqResult PageResponse)
    (e : ReqResult PageResponse)
    (h : (apiRequestWithRetry req).result = Except.error e) :
    fetchWorkItemActivities req = [] ∧ fetchWorkItemComments req = [] ∧
    fetchWorkItemSubitems req = [] ∧
    fetchWorkItemActivities
      (fun _ => ReqResult.ok (PageResponse.results [] none)) = [] ∧
    fetchWorkItemComments
      (fun _ => ReqResult.ok (PageResponse.results [] none)) = [] ∧
    fetchWorkItemSubitems
      (fun _ => ReqResult.ok (PageResponse.results [] none)) = [] := by
  refine ⟨?_, ?_, ?_, ?_, ?_, ?_⟩
  · simp [fetchWorkItemActivities, h]
  · simp [fetchWorkItemComments, h]
  · simp [fetchWorkItemSubitems, h]
  · simp [fetchWorkItemActivities, apiRequestWithRetry, retryLoop, MAX_RETRIES,
      normalizeListResponse]
  · simp [fetchWorkItemComments, apiRequestWithRetry, retryLoop, MAX_RETRIES,
      normalizeListResponse]
  · simp [fetchWorkItemSubitems, apiRequestWithRetry, retryLoop, MAX_RETRIES,
      normalizeListResponse]

set_option maxRecDepth 8000 in
/-- C10, witness: a request that always fails with HTTP 500. -/
theorem fetchers_absorb_errors_witness :
    fetchWorkItemActivities
      (fun _ => ReqResult.err (some 500) none : Nat → ReqResult PageResponse) = [] ∧
    fetchWorkItemComments
      (fun _ => ReqResult.err (some 500) none : Nat → ReqResult PageResponse) = [] ∧
    fetchWorkItemSubitems
      (fun _ => ReqResult.err (some 500) none : Nat → ReqResult PageResponse) = [] ∧
    fetchWorkItemActivities
      (fun _ => ReqResult.ok (PageResponse.results [] none)) = [] ∧
    fetchWorkItemComments
      (fun _ => ReqResult.ok (PageResponse.results [] none)) = [] ∧
    fetchWorkItemSubitems
      (fun _ => ReqResult.ok (PageResponse.results [] none)) = [] :=
  fetchers_absorb_errors _ (ReqResult.err (some 500) none)
    (by simp [apiRequestWithRetry, retryLoop, MAX_RETRIES])

theorem fetchWorkItemsLoop_le (resp : Nat → PageResponse) :
    ∀ (k i : Nat) (hm : Bool) (acc : List Nat), MAX_ITERATIONS - i ≤ k →
      acc.length ≤ MAX_WORK_ITEMS_PER_PROJECT →
      (fetchWorkItemsLoop resp i hm acc).length ≤ MAX_WORK_ITEMS_PER_PROJECT := by
  intro k
  induction k with
  | zero =>
      intro i hm acc hk hacc
      rw [fetchWorkItemsLoop, dif_neg]
      · exact hacc
      · intro hcon
        have := hcon.2.2
        simp only [MAX_ITERATIONS] at this hk
        omega
  | succ k ih =>
      intro i hm acc hk hacc
      rw [fetchWorkItemsLoop]
      by_cases hcond : hm = true ∧ acc.length < MAX_WORK_ITEMS_PER_PROJECT ∧
          i < MAX_ITERATIONS
      · rw [dif_pos hcond]
        cases hresp : resp i with
        | arr data =>
            have h1 : (data.take (MAX_WORK_ITEMS_PER_PROJECT - acc.length)).length ≤
                MAX_WORK_ITEMS_PER_PROJECT - acc.length := List.length_take_le _ _
            simp only [List.length_append]
            omega
        | results items next_cursor =>
            by_cases hlen : items.length > 0
            · simp only [hlen, if_true]
              apply ih
              · simp only [MAX_ITERATIONS] at hcond hk ⊢
                omega
              · have h1 : (items.take (MAX_WORK_ITEMS_PER_PROJECT - acc.length)).length ≤
                    MAX_WORK_ITEMS_PER_PROJECT - acc.length := List.length_take_le _ _
                simp only [List.length_append]
                omega
            · simp only [hlen, if_false]
              exact hacc
        | other => exact hacc
      · rw [dif_neg hcond]
        exact hacc

/-- C9: `fetchWorkItems` returns at most `MAX_WORK_ITEMS_PER_PROJECT` (200)
work items for every upstream response sequence, and once the budget is
reached the pagination loop stops immediately (returns its accumulator)
even when the upstream offers a further cursor. -/
theorem fetchWorkItems_bounded (resp : Nat → PageResponse) :
    (fetchWorkItems resp).length ≤ MAX_WORK_ITEMS_PER_PROJECT ∧
    (∀ (i : Nat) (hm : Bool) (acc : List Nat),
      MAX_WORK_ITEMS_PER_PROJECT ≤ acc.length →
      fetchWorkItemsLoop resp i hm acc = acc) := by
  constructor
  · exact fetchWorkItemsLoop_le resp MAX_ITERATIONS 0 true [] (by omega) (by simp)
  · intro i hm acc hacc
    rw [fetchWorkItemsLoop, dif_neg]
    intro hcon
    have := hcon.2.1
    omega

/-- C9, witness: an upstream that always offers one more item and a cursor;
and the stop-at-budget equation at a full accumulator. -/
theorem fetchWorkItems_bounded_witness :
    (fetchWorkItems (fun _ => PageResponse.results [0] (some "c"))).length ≤
      MAX_WORK_ITEMS_PER_PROJECT ∧
    fetchWorkItemsLoop (fun _ => PageResponse.results [0] (some "c")) 0 true
      (List.replicate 200 0) = List.replicate 200 0 :=
  ⟨(fetchWorkItems_bounded _).1,
   (fetchWorkItems_bounded _).2 0 true (List.replicate 200 0)
     (by rw [List.length_replicate]; decide)⟩

theorem get_pending (m : CacheManager) (now : Int) :
    ((m.get now).2).pendingRequests = m.pendingRequests := by
  cases hc : m.cache <;> simp [CacheManager.get, hc]
  split <;> simp

theorem get_none_cache (m : CacheManager) (now : Int)
    (h : (m.get now).1 = none) : ((m.get now).2).cache = none := by
  cases hc : m.cache with
  | none => simp [CacheManager.get, hc]
  | some e =>
      by_cases hv : m.isCacheValid e.timestamp now = true
      · simp [CacheManager.get, hc, hv] at h
      · simp [CacheManager.get, hc, hv]

theorem runConcurrentCalls_joined (now : Int) (p : Nat) :
    ∀ (k pid0 : Nat) (m : CacheManager), m.cache = none →
      m.pendingRequests = some p →
      runConcurrentCalls m now k pid0 =
        (m, List.replicate k (GetOrFetchOutcome.joined p)) := by
  intro k
  induction k with
  | zero =>
      intro pid0 m hc hp
      simp [runConcurrentCalls]
  | succ n ih =>
      intro pid0 m hc hp
      have hstep : m.getOrFetchStep now pid0 = (m, .joined p) := by
        simp [CacheManager.getOrFetchStep, CacheManager.get, hc, hp]
      simp [runConcurrentCalls, hstep, ih (pid0 + 1) m hc hp, List.replicate]

/-- C1: when the key is uncached (no valid cache entry) and no fetch is
pending, `n` concurrent `getOrFetch` callers invoke the fetch function
exactly once — the first call records the pending promise `pid0` and
starts the fetch, every later call made while that promise is pending
joins the same promise `pid0` (receiving the same result), and the number
of fetch starts is exactly one. -/
theorem getOrFetch_dedup (m : CacheManager) (now : Int) (n pid0 : Nat)
    (hn : 0 < n) (hc : (m.get now).1 = none) (hp : m.pendingRequests = none) :
    (runConcurrentCalls m now n pid0).2 =
      GetOrFetchOutcome.started pid0 ::
        List.replicate (n - 1) (GetOrFetchOutcome.joined pid0) ∧
    (runConcurrentCalls m now n pid0).2.countP GetOrFetchOutcome.isStarted = 1 := by
  obtain ⟨k, rfl⟩ : ∃ k, n = k + 1 := ⟨n - 1, by omega⟩
  have hm1c : ((m.get now).2).cache = none := get_none_cache m now hc
  have hm1p : ((m.get now).2).pendingRequests = none := by
    rw [get_pending]; exact hp
  have hstep : m.getOrFetchStep now pid0 =
      ({ (m.get now).2 with pendingRequests := some pid0 }, .started pid0) := by
    simp [CacheManager.getOrFetchStep, hc, hm1p]
  have hrest := runConcurrentCalls_joined now pid0 k (pid0 + 1)
    ({ (m.get now).2 with pendingRequests := some pid0 }) (by simp [hm1c])
    (by simp)
  have hlist : (runConcurrentCalls m now (k + 1) pid0).2 =
      GetOrFetchOutcome.started pid0 ::
        List.replicate k (GetOrFetchOutcome.joined pid0) := by
    simp [runConcurrentCalls, hstep, hrest]
  constructor
  · simpa using hlist
  · rw [hlist]
    have h2 : (List.replicate k (GetOrFetchOutcome.joined pid0)).countP
        GetOrFetchOutcome.isStarted = 0 := by
      apply List.countP_eq_zero.mpr
      intro a ha
      have := List.eq_of_mem_replicate ha
      subst this
      simp [GetOrFetchOutcome.isStarted]
    simp [List.countP_cons, h2, GetOrFetchOutcome.isStarted]

/-- C1, witness: three concurrent callers on an empty cache with a
five-minute TTL. -/
theorem getOrFetch_dedup_witness :
    (runConcurrentCalls
        { cache := none, ttl := 300000, pendingRequests := none } 0 3 0).2 =
      GetOrFetchOutcome.started 0 ::
        List.replicate (3 - 1) (GetOrFetchOutcome.joined 0) ∧
    (runConcurrentCalls
        { cache := none, ttl := 300000, pendingRequests := none } 0 3 0).2.countP
      GetOrFetchOutcome.isStarted = 1 :=
  getOrFetch_dedup { cache := none, ttl := 300000, pendingRequests := none }
    0 3 0 (by decide) rfl rfl

/-- C2: session-scoped cache isolation. After `startProjectSession(A)` a
write of key `k` followed by a read is a hit; after a subsequent
`startProjectSession(B)` (different token) the read misses even though the
TTL has not elapsed; and in general a cached read returns the stored value
only if the entry is inside its TTL and its stored session token equals
the current session token. -/
theorem session_cache_isolation
    (pidA pidB : String) (nA nB : Nat) (v : Nat) (t0 now ttl : Int)
    (ht0 : t0 ≠ 0) (hwin : now - t0 < ttl)
    (hdiff : startProjectSessionToken pidB nB ≠ startProjectSessionToken pidA nA) :
    sessionCacheRead (some (startProjectSessionToken pidA nA))
      (some (sessionCacheWrite (some (startProjectSessionToken pidA nA)) v t0))
      ttl now = some v ∧
    sessionCacheRead (some (startProjectSessionToken pidB nB))
      (some (sessionCacheWrite (some (startProjectSessionToken pidA nA)) v t0))
      ttl now = none ∧
    (∀ (cur : Option String) (entry : Option SessionCacheEntry) (w : Nat),
      sessionCacheRead cur entry ttl now = some w →
      ∃ e, entry = some e ∧ e.data = w ∧ e.timestamp ≠ 0 ∧
        now - e.timestamp < ttl ∧ ∃ c, cur = some c ∧ e.sessionId = some c) := by
  refine ⟨?_, ?_, ?_⟩
  · simp [sessionCacheRead, sessionCacheWrite, isInCurrentSession, isCacheValid,
      ht0, hwin]
  · simp [sessionCacheRead, sessionCacheWrite, isInCurrentSession, isCacheValid,
      ht0, hwin, hdiff, Ne.symm hdiff]
  · intro cur entry w h
    cases entry with
    | none => simp [sessionCacheRead] at h
    | some e =>
        cases cur with
        | none => simp [sessionCacheRead, isInCurrentSession] at h
        | some c =>
            simp only [sessionCacheRead] at h
            by_cases hcond : (isInCurrentSession (some c) (some e) &&
                isCacheValid e.timestamp ttl now) = true
            · rw [if_pos hcond] at h
              rw [Bool.and_eq_true] at hcond
              obtain ⟨ha, hb⟩ := hcond
              simp only [isInCurrentSession, beq_iff_eq] at ha
              simp only [isCacheValid, Bool.and_eq_true, bne_iff_ne, ne_eq,
                decide_eq_true_eq] at hb
              exact ⟨e, rfl, Option.some.inj h, hb.1, hb.2, c, rfl, ha⟩
            · rw [if_neg hcond] at h
              exact absurd h (by simp)

/-- C2, witness: sessions started for project "p" at milliseconds 1 and 2,
a write at time 1 read back at time 2 under a five-minute TTL. -/
theorem session_cache_isolation_witness :
    sessionCacheRead (some (startProjectSessionToken "p" 1))
      (some (sessionCacheWrite (some (startProjectSessionToken "p" 1)) 7 1))
      300000 2 = some 7 ∧
    sessionCacheRead (some (startProjectSessionToken "p" 2))
      (some (sessionCacheWrite (some (startProjectSessionToken "p" 1)) 7 1))
      300000 2 = none ∧
    (∀ (cur : Option String) (entry : Option SessionCacheEntry) (w : Nat),
      sessionCacheRead cur entry 300000 2 = some w →
      ∃ e, entry = some e ∧ e.data = w ∧ e.timestamp ≠ 0 ∧
        (2 : Int) - e.timestamp < 300000 ∧
        ∃ c, cur = some c ∧ e.sessionId = some c) :=
  session_cache_isolation "p" "p" 1 2 7 1 2 300000 (by decide) (by decide)
    (startProjectSessionToken_ne "p" (by decide))

theorem foldl_keep (e : WorkItemStateEntry) :
    ∀ (rs : List WActivity), (∀ s ∈ rs, s.effTime ≤ e.time) →
      rs.foldl updateWorkItemState (some e) = some e := by
  intro rs
  induction rs with
  | nil => intro _; simp
  | cons x xs ih =>
      intro h
      have hx : x.effTime ≤ e.time := h x (by simp)
      have hstep : updateWorkItemState (some e) x = some e := by
        simp only [updateWorkItemState]
        rw [if_neg (by omega)]
      rw [List.foldl_cons, hstep]
      exact ih (fun s hs => h s (List.mem_cons_of_mem x hs))

theorem foldl_strict_latest :
    ∀ (rs : List WActivity) (acc : Option WorkItemStateEntry) (r : WActivity),
      r ∈ rs →
      (∀ s ∈ rs, s ≠ r → s.effTime < r.effTime) →
      (∀ e, acc = some e → e.time < r.effTime) →
      rs.foldl updateWorkItemState acc = some r.toEntry := by
  intro rs
  induction rs with
  | nil => intro acc r hr; simp at hr
  | cons x xs ih =>
      intro acc r hr hmax hacc
      rw [List.foldl_cons]
      by_cases hxr : x = r
      · have hstep : updateWorkItemState acc x = some x.toEntry := by
          cases acc with
          | none => simp [updateWorkItemState]
          | some e =>
              have he := hacc e rfl
              simp only [updateWorkItemState]
              rw [if_pos (by rw [hxr]; exact he)]
        rw [hstep, hxr]
        apply foldl_keep
        intro s hs
        rcases eq_or_ne s r with hsr | hsr
        · rw [hsr]
          exact le_of_eq rfl
        · exact le_of_lt (hmax s (List.mem_cons_of_mem x hs) hsr)
      · have hxlt : x.effTime < r.effTime := hmax x (by simp) hxr
        have hr' : r ∈ xs := by
          rcases List.mem_cons.mp hr with h | h
          · exact absurd h.symm hxr
          · exact h
        apply ih _ r hr' (fun s hs hsr => hmax s (List.mem_cons_of_mem x hs) hsr)
        intro e he
        cases acc with
        | none =>
            simp only [updateWorkItemState] at he
            have : e = x.toEntry := by
              injection he.symm
            rw [this]
            exact hxlt
        | some e0 =>
            have h0 := hacc e0 rfl
            simp only [updateWorkItemState] at he
            by_cases hlt : e0.time < x.effTime
            · rw [if_pos hlt] at he
              have : e = x.toEntry := by injection he.symm
              rw [this]
              exact hxlt
            · rw [if_neg hlt] at he
              have : e = e0 := by injection he.symm
              rw [this]
              exact h0

/-- C8: among the activity/snapshot records of one work item, the record
with the strictly latest timestamp determines the stored displayed state
(and therefore the bucket), independently of processing order. -/
theorem latest_record_wins (rs : List WActivity) (r : WActivity)
    (hr : r ∈ rs) (hmax : ∀ s ∈ rs, s ≠ r → s.effTime < r.effTime) :
    workItemStatesFold rs = some r.toEntry ∧
    classifyWorkItem rs = some (classifyState r.displayedState) := by
  have h : rs.foldl updateWorkItemState none = some r.toEntry :=
    foldl_strict_latest rs none r hr hmax (fun e he => by simp at he)
  constructor
  · exact h
  · show (workItemStatesFold rs).map (fun e => classifyState e.state) = _
    rw [workItemStatesFold] at *
    rw [h]
    rfl

/-- C8, witness: two activity records for the same work item, newValue
"Todo" at time 1 and "Done" at time 2; in either processing order the item
is bucketed as completed. -/
theorem latest_record_wins_witness :
    classifyWorkItem
      [⟨"W-1", "Task", some "Todo", some "Todo", some "state", some 1, 1⟩,
       ⟨"W-1", "Task", some "Done", some "Done", some "state", some 2, 2⟩] =
      some SummaryBucket.completed ∧
    classifyWorkItem
      [⟨"W-1", "Task", some "Done", some "Done", some "state", some 2, 2⟩,
       ⟨"W-1", "Task", some "Todo", some "Todo", some "state", some 1, 1⟩] =
      some SummaryBucket.completed := by
  constructor
  · rw [(latest_record_wins
      [⟨"W-1", "Task", some "Todo", some "Todo", some "state", some 1, 1⟩,
       ⟨"W-1", "Task", some "Done", some "Done", some "state", some 2, 2⟩]
      ⟨"W-1", "Task", some "Done", some "Done", some "state", some 2, 2⟩
      (by decide) (by decide)).2]
    decide
  · rw [(latest_record_wins
      [⟨"W-1", "Task", some "Done", some "Done", some "state", some 2, 2⟩,
       ⟨"W-1", "Task", some "Todo", some "Todo", some "state", some 1, 1⟩]
      ⟨"W-1", "Task", some "Done", some "Done", some "state", some 2, 2⟩
      (by decide) (by decide)).2]
    decide

/-- C7: snapshot fallback. For a relevant work item whose fetched data
contains no in-window activity, no in-window comment and no subitem, the
fan-out body emits exactly one `work_item_snapshot` record when no actor
filter is set or the filter fuzzy-matches one of the task's assignees, and
emits no record at all when a filter is set and matches no assignee. -/
theorem snapshot_fallback
    (resolveName : String → String) (startDate endDate : Int)
    (actorFilter : Option String) (task : FetchTask)
    (acts : List RawActivity) (comments : List RawComment)
    (subitems : List RawSubitem)
    (hA : ∀ a ∈ acts, inDateWindow startDate endDate (activityDate a) = false)
    (hC : ∀ c ∈ comments, inDateWindow startDate endDate c.created_at = false)
    (hS : subitems = []) :
    processTaskRecords resolveName startDate endDate actorFilter task acts
        comments subitems =
      if isAssignedTo actorFilter task.assignees then
        [snapshotRecordFor task (currentRelationships acts)]
      else [] := by
  subst hS
  have hA' : ∀ a ∈ acts.take MAX_ACTIVITIES_PER_ITEM,
      activityRecordFor resolveName startDate endDate actorFilter task
        (currentRelationships acts) (jsOrStr task.state "Unknown") a = none :=
    fun a ha => by
      simp [activityRecordFor, hA a (List.take_subset _ _ ha)]
  have hA2 : ∀ a ∈ acts.take MAX_ACTIVITIES_PER_ITEM,
      ¬ activitySetsFound resolveName startDate endDate actorFilter a = true :=
    fun a ha => by
      simp [activitySetsFound, hA a (List.take_subset _ _ ha)]
  have hC' : ∀ c ∈ comments.take MAX_ACTIVITIES_PER_ITEM,
      commentRecordFor resolveName startDate endDate actorFilter task
        (currentRelationships acts) (jsOrStr task.state "Unknown") c = none :=
    fun c hc => by
      simp [commentRecordFor, hC c (List.take_subset _ _ hc)]
  have hC2 : ∀ c ∈ comments.take MAX_ACTIVITIES_PER_ITEM,
      ¬ commentSetsFound startDate endDate c = true :=
    fun c hc => by
      simp [commentSetsFound, hC c (List.take_subset _ _ hc)]
  simp only [processTaskRecords, List.filterMap_eq_nil_iff.mpr hA',
    List.filterMap_eq_nil_iff.mpr hC', List.any_eq_false.mpr hA2,
    List.any_eq_false.mpr hC2, List.filterMap_nil, Bool.or_self,
    Bool.not_false, Bool.true_and, List.nil_append]

/-- C7, witness: a task assigned to Alice with no fetched activity,
comments or subitems — with the filter "alice" (fuzzy-matching the
assignee "Alice") exactly one snapshot is emitted, with the
non-matching filter "bob" nothing is emitted. -/
theorem snapshot_fallback_witness :
    processTaskRecords (fun s => s) 0 100 (some "alice")
      { projectId := "p", workItemId := "w", workItemIdentifier := "P-1",
        workItemName := "Task", projectIdentifier := "P", createdAt := 5,
        updatedAt := 6, assignees := ["Alice"], state := "Todo",
        priority := "high" } [] [] [] =
      [snapshotRecordFor
        { projectId := "p", workItemId := "w", workItemIdentifier := "P-1",
          workItemName := "Task", projectIdentifier := "P", createdAt := 5,
          updatedAt := 6, assignees := ["Alice"], state := "Todo",
          priority := "high" } (currentRelationships [])] ∧
    processTaskRecords (fun s => s) 0 100 (some "bob")
      { projectId := "p", workItemId := "w", workItemIdentifier := "P-1",
        workItemName := "Task", projectIdentifier := "P", createdAt := 5,
        updatedAt := 6, assignees := ["Alice"], state := "Todo",
        priority := "high" } [] [] [] = [] := by
  constructor
  · rw [snapshot_fallback (fun s => s) 0 100 (some "alice") _ [] [] []
      (by simp) (by simp) rfl]
    rw [if_pos (by decide)]
  · rw [snapshot_fallback (fun s => s) 0 100 (some "bob") _ [] [] []
      (by simp) (by simp) rfl]
    rw [if_neg (by decide)]
